import Mathlib

/-!
Verification of the origin-validation core of the `cerberus` crate
(`src/project/types/origin.rs` and `src/project/types/project_data.rs`)
against its natural-language specification.

Strings are modelled as `List Char`.  The Rust regex
`^(([^:]+)://)?([^:/]+)(:([\d]+))?` (leftmost-first semantics of the
`regex` crate) is modelled by an explicit two-attempt capture function:
the optional scheme group commits to the run of non-colon characters
before the first `:` and requires it to be followed by `//`; if that
attempt cannot complete (no `://`, empty scheme, or empty hostname after
the scheme) the engine falls back to matching with an empty scheme group
from the start of the input.  `[\d]` is modelled as the ASCII digits
`0`-`9`.
-/

namespace Cerberus

/-- One dot-separated hostname segment / raw string. -/
abbrev Str := List Char

/-- Characters allowed in the hostname capture group `[^:/]+`. -/
def isHostChar (c : Char) : Bool := c != ':' && c != '/'

/-- Characters allowed in the scheme capture group `[^:]+`. -/
def notColon (c : Char) : Bool := c != ':'

/-- Decimal digit test for the port group `[\d]+` (modelled as ASCII digits). -/
def isDigitChar (c : Char) : Bool := c.isDigit

/-- Raw captures of the origin parser regex: group 2 (scheme), group 3
(hostname) and group 5 (port digits). -/
structure RawCaps where
  scheme : Option Str
  host : Str
  portStr : Option Str
deriving DecidableEq, Repr

/-- The optional port group `(:([\d]+))?`: after the hostname, a `:`
followed by a non-empty maximal run of digits. -/
def capturePort (rest : Str) : Option Str :=
  match rest with
  | [] => none
  | c :: r =>
    if c = ':' then
      let ds := r.takeWhile isDigitChar
      if ds = [] then none else some ds
    else none

/-- Capture hostname and port starting at `r`, with scheme capture `sch`
already decided.  Fails when the hostname group `[^:/]+` would be empty. -/
def captureHostPort (sch : Option Str) (r : Str) : Option RawCaps :=
  let host := r.takeWhile isHostChar
  if host = [] then none
  else some ⟨sch, host, capturePort (r.dropWhile isHostChar)⟩

/-- The `(([^:]+)://)?` group: in the `regex` crate's leftmost-first
semantics the scheme `[^:]+` can only end at the first `:` of the input,
which must be followed by `//`; returns the scheme and the remainder
after `://`. -/
def schemeSplit (s : Str) : Option (Str × Str) :=
  match s.dropWhile notColon with
  | c1 :: c2 :: c3 :: r =>
    if c1 = ':' && c2 = '/' && c3 = '/' && !(s.takeWhile notColon = []) then
      some (s.takeWhile notColon, r)
    else none
  | _ => none

/-- Model of `ORIGIN_PARSER_REGEX.captures`: first try to read the
optional `(([^:]+)://)?` group and then the hostname and port; if that
whole attempt fails (no `://`, empty scheme, or empty hostname after the
scheme), the engine backtracks and retries with the scheme group empty
from position 0. -/
def captures (s : Str) : Option RawCaps :=
  match schemeSplit s with
  | some (sch, r) =>
    match captureHostPort (some sch) r with
    | some caps => some caps
    | none => captureHostPort none s
  | none => captureHostPort none s

/-- `str.split('.')` on the hostname, keeping empty segments, as in Rust. -/
def splitOnDot (l : Str) : List Str := l.splitOn '.'

/-- Join segments with `.` between consecutive ones, mirroring the
`Display` loop that writes each part followed by a dot when more parts
remain. -/
def joinDots (parts : List Str) : Str := List.intercalate ['.'] parts

/-- Decimal value of a digit string, as `str::parse` computes it. -/
def parseNat (cs : Str) : Nat :=
  cs.foldl (fun a c => 10 * a + (c.toNat - 48)) 0

/-- Big-endian decimal digits of `n` (fuel-indexed helper). -/
def natToCharsAux : Nat → Nat → Str → Str
  | 0, _, acc => acc
  | fuel + 1, n, acc =>
    if n = 0 then acc
    else natToCharsAux fuel (n / 10) (Nat.digitChar (n % 10) :: acc)

/-- Canonical decimal rendering of `n`, as Rust's `{port}` formatting. -/
def natChars (n : Nat) : Str :=
  if n = 0 then ['0'] else natToCharsAux n n []

inductive OriginParseError where
  | InvalidFormat
  | InvalidPortNumber
deriving DecidableEq, Repr

/-- The parsed origin: optional scheme, raw hostname, its dot-separated
segments, and optional 16-bit port. -/
structure Origin where
  scheme : Option Str
  hostname : Str
  hostname_parts : List Str
  port : Option Nat
deriving DecidableEq, Repr

instance {ε α : Type} [DecidableEq ε] [DecidableEq α] : DecidableEq (Except ε α) :=
  fun a b =>
    match a, b with
    | .ok x, .ok y =>
      if h : x = y then .isTrue (by rw [h])
      else .isFalse (by intro hc; cases hc; exact h rfl)
    | .ok _, .error _ => .isFalse (by intro hc; cases hc)
    | .error _, .ok _ => .isFalse (by intro hc; cases hc)
    | .error x, .error y =>
      if h : x = y then .isTrue (by rw [h])
      else .isFalse (by intro hc; cases hc; exact h rfl)

/-- `TryFrom<&str> for Origin`: run the regex captures, split the
hostname on `.`, and parse the port digits as a `u16` (value at most
65535), reporting `InvalidPortNumber` on overflow. -/
def Origin.tryFrom (s : Str) : Except OriginParseError Origin :=
  match captures s with
  | none => .error .InvalidFormat
  | some caps =>
    match caps.portStr with
    | none => .ok ⟨caps.scheme, caps.host, splitOnDot caps.host, none⟩
    | some ds =>
      let v := parseNat ds
      if v ≤ 65535 then .ok ⟨caps.scheme, caps.host, splitOnDot caps.host, some v⟩
      else .error .InvalidPortNumber

/-- `Display for Origin`: scheme followed by `://` when present, then the
hostname segments joined with `.`, then `:port` when present. -/
def Origin.display (o : Origin) : Str :=
  (match o.scheme with
   | some sch => sch ++ [':', '/', '/']
   | none => []) ++
  joinDots o.hostname_parts ++
  (match o.port with
   | some p => ':' :: natChars p
   | none => [])

/-- The literal wildcard segment token. -/
def WILDCARD : Str := ['*']

/-- `Origin::matches` from `origin.rs`: scheme check (both present and
different fails), strict port equality, segment-count check, then the
segment loop where a `*` on `self` matches anything. -/
def Origin.matches (self other : Origin) : Bool :=
  if self.scheme.isSome && other.scheme.isSome && self.scheme != other.scheme then
    false
  else if self.port != other.port then
    false
  else if self.hostname_parts.length != other.hostname_parts.length then
    false
  else
    (List.zip self.hostname_parts other.hostname_parts).all
      (fun p => p.1 == WILDCARD || p.1 == p.2)

/-- Bit-flag matching policy from `origin.rs`, modelled as a record of
the five flags. -/
structure MatchingPolicy where
  checkScheme : Bool
  checkPort : Bool
  allowBundleId : Bool
  allowEmptyScheme : Bool
  allowEmptyPort : Bool
deriving DecidableEq, Repr

/-- `MatchingPolicy::default()` = `CheckAll | AllowEmptyScheme`. -/
def MatchingPolicy.default : MatchingPolicy :=
  ⟨true, true, false, true, false⟩

/-- `Origin::matches_opt` from `origin.rs`: policy-driven scheme and port
checks, segment-count check, then forward fold and (under
`AllowBundleID`) reversed fold, combined with `||`. -/
def Origin.matches_opt (self other : Origin) (policy : MatchingPolicy) : Bool :=
  if policy.checkScheme &&
     (if policy.allowEmptyScheme then
        self.scheme.isSome && other.scheme.isSome && self.scheme != other.scheme
      else self.scheme != other.scheme) then
    false
  else if policy.checkPort &&
     (if policy.allowEmptyPort then
        self.port.isSome && other.port.isSome && self.port != other.port
      else self.port != other.port) then
    false
  else if self.hostname_parts.length != other.hostname_parts.length then
    false
  else
    let match_domain :=
      (List.zip self.hostname_parts other.hostname_parts).foldl
        (fun res p => if p.1 == WILDCARD then res else res && p.1 == p.2) true
    let match_bundle_id :=
      if policy.allowBundleId then
        (List.zip self.hostname_parts other.hostname_parts.reverse).foldl
          (fun res p => if p.1 == WILDCARD then res else res && p.1 == p.2) true
      else false
    match_domain || match_bundle_id

/-- Modelled from the spec: `Origin::matches_rev` is called by
`ProjectData::valiadte_origin_header` but its definition is not part of
the sources provided; per spec §4.2 (Reverse mode) it performs the
lenient scheme check (fails only when both schemes are present and
differ), the lenient port check (fails only when both ports are present
and differ), the segment-count check, and then compares `self`'s
segments against `other`'s segments read back-to-front, with `*` on the
`self` side matching any segment. -/
def Origin.matches_rev (self other : Origin) : Bool :=
  if self.scheme.isSome && other.scheme.isSome && self.scheme != other.scheme then
    false
  else if self.port.isSome && other.port.isSome && self.port != other.port then
    false
  else if self.hostname_parts.length != other.hostname_parts.length then
    false
  else
    (List.zip self.hostname_parts other.hostname_parts.reverse).all
      (fun p => p.1 == WILDCARD || p.1 == p.2)

inductive OriginSource where
  | Header
  | BundleId
  | PackageName
deriving DecidableEq, Repr

inductive AccessError where
  | ProjectInactive
  | KeyInvalid
  | OriginNotAllowed
deriving DecidableEq, Repr

structure ProjectKey where
  value : Str
  is_valid : Bool
deriving DecidableEq, Repr

structure Quota where
  max : Nat
  current : Nat
  is_valid : Bool
deriving DecidableEq, Repr

structure ProjectData where
  uuid : Str
  creator : Str
  name : Str
  push_url : Option Str
  keys : List ProjectKey
  is_enabled : Bool
  is_verify_enabled : Bool
  is_rate_limited : Bool
  allowed_origins : List Str
  verified_domains : List Str
  bundle_ids : List Str
  package_names : List Str
  quota : Quota
deriving DecidableEq, Repr

/-- The key scan of `validate_access`: some entry of `keys` has `value ==
id` and `is_valid`. -/
def has_valid_key (p : ProjectData) (id : Str) : Bool :=
  p.keys.any fun k => k.value == id && k.is_valid

/-- `ALLOWED_LOCAL_HOSTS` from `valiadte_origin_header`. -/
def ALLOWED_LOCAL_HOSTS : List Str := ["localhost".data, "127.0.0.1".data]

/-- The local-development bypass test: the presented hostname equals one
of the allowed local hosts exactly. -/
def is_local_host (auth : Origin) : Bool :=
  ALLOWED_LOCAL_HOSTS.any fun h => auth.hostname == h

/-- One iteration of the `validate_origin` loop: parse the entry
(malformed entries never match) and forward-match it against the
presented origin. -/
def entry_matches_fwd (auth : Origin) (s : Str) : Bool :=
  match Origin.tryFrom s with
  | .ok o => o.matches auth
  | .error _ => false

/-- One iteration of the `valiadte_origin_header` loop: parse the entry
(malformed entries never match) and match it forward or in reverse
against the presented origin. -/
def entry_matches_fwd_rev (auth : Origin) (s : Str) : Bool :=
  match Origin.tryFrom s with
  | .ok o => o.matches auth || o.matches_rev auth
  | .error _ => false

/-- `ProjectData::valiadte_origin_header` (name kept as in the source):
allow everything when `allow_empty` and `allowed_origins` is empty; then
the local-host bypass; then scan `allowed_origins`, skipping malformed
entries, accepting on a forward or reverse match; otherwise
`OriginNotAllowed`. -/
def valiadte_origin_header (p : ProjectData) (auth : Origin) (allow_empty : Bool) :
    Except AccessError Unit :=
  if allow_empty && p.allowed_origins.isEmpty then .ok ()
  else if is_local_host auth then .ok ()
  else if p.allowed_origins.any (entry_matches_fwd_rev auth) then .ok ()
  else .error .OriginNotAllowed

/-- `ProjectData::validate_origin`: allow everything when the list is
empty; scan it, skipping malformed entries, accepting on a forward
match; on no match fall back to the `allowed_origins` check with
`allow_empty = false`. -/
def validate_origin (p : ProjectData) (auth : Origin) (allow_list : List Str) :
    Except AccessError Unit :=
  if allow_list.isEmpty then .ok ()
  else if allow_list.any (entry_matches_fwd auth) then .ok ()
  else valiadte_origin_header p auth false

/-- `ProjectData::validate_access`: disabled project, then key validity,
then (when an origin is presented) parse it and dispatch on the source
kind; no presented origin grants access. -/
def validate_access (p : ProjectData) (id : Str) (auth_origin : Option Str)
    (source : OriginSource) : Except AccessError Unit :=
  if !p.is_enabled then .error .ProjectInactive
  else if !has_valid_key p id then .error .KeyInvalid
  else
    match auth_origin with
    | some s =>
      match Origin.tryFrom s with
      | .error _ => .error .OriginNotAllowed
      | .ok auth =>
        match source with
        | .Header => valiadte_origin_header p auth true
        | .BundleId => validate_origin p auth p.bundle_ids
        | .PackageName => validate_origin p auth p.package_names
    | none => .ok ()

/-- The allow-list that a source kind is checked against first. -/
def primary_list (p : ProjectData) (source : OriginSource) : List Str :=
  match source with
  | .Header => p.allowed_origins
  | .BundleId => p.bundle_ids
  | .PackageName => p.package_names

/-- Selector for the three allow-lists of a project. -/
inductive ListKind where
  | AllowedOrigins
  | BundleIds
  | PackageNames
deriving DecidableEq, Repr

/-- Replace one of the three allow-lists of a project. -/
def set_list (p : ProjectData) (k : ListKind) (l : List Str) : ProjectData :=
  match k with
  | .AllowedOrigins => { p with allowed_origins := l }
  | .BundleIds => { p with bundle_ids := l }
  | .PackageNames => { p with package_names := l }

/-- Decomposed scheme check shared by the matchers: fails only when both
schemes are present and differ. -/
def scheme_check (o1 o2 : Origin) : Bool :=
  !(o1.scheme.isSome && o2.scheme.isSome && o1.scheme != o2.scheme)

/-- The port check `matches` actually performs: strict equality of the
optional ports. -/
def port_check_strict (o1 o2 : Origin) : Bool :=
  o1.port == o2.port

/-- The lenient port check: fails only when both ports are present and
differ. -/
def port_check_lenient (o1 o2 : Origin) : Bool :=
  !(o1.port.isSome && o2.port.isSome && o1.port != o2.port)

/-- Segment-count check plus forward segment loop with `*` wildcards on
the `self` (first) side. -/
def seg_check_fwd (o1 o2 : Origin) : Bool :=
  (o1.hostname_parts.length == o2.hostname_parts.length) &&
  (List.zip o1.hostname_parts o2.hostname_parts).all
    (fun p => p.1 == WILDCARD || p.1 == p.2)

/-- Segment-count check plus reversed segment loop with `*` wildcards on
the `self` (first) side. -/
def seg_check_rev (o1 o2 : Origin) : Bool :=
  (o1.hostname_parts.length == o2.hostname_parts.length) &&
  (List.zip o1.hostname_parts o2.hostname_parts.reverse).all
    (fun p => p.1 == WILDCARD || p.1 == p.2)

/-- A project record template used by the concrete examples below. -/
def exProject (allowed bundles packages : List Str) : ProjectData :=
  { uuid := "u".data, creator := "c".data, name := "n".data, push_url := none
    keys := [⟨"k".data, true⟩]
    is_enabled := true, is_verify_enabled := false, is_rate_limited := false
    allowed_origins := allowed
    verified_domains := []
    bundle_ids := bundles
    package_names := packages
    quota := ⟨0, 0, true⟩ }

/-- The parse of `"test.example.com"`. -/
def authTestExample : Origin :=
  ⟨none, "test.example.com".data, ["test".data, "example".data, "com".data], none⟩

/-- The parse of `"a.b.domain.name"`. -/
def originABDN : Origin :=
  ⟨none, "a.b.domain.name".data, ["a".data, "b".data, "domain".data, "name".data], none⟩

/-- The parse of `"name.domain.b.a"`. -/
def originNDBA : Origin :=
  ⟨none, "name.domain.b.a".data, ["name".data, "domain".data, "b".data, "a".data], none⟩

/-- Concrete project for the C1 example: one `allowed_origins` entry and
one `bundle_ids` entry. -/
def exProjectC1 : ProjectData :=
  exProject ["test.example.com".data] ["com.example.bundle".data] []

/-- The parse of `"domain.name"`. -/
def originDNnoPort : Origin :=
  ⟨none, "domain.name".data, ["domain".data, "name".data], none⟩

/-- The parse of `"domain.name:123"`. -/
def originDNport : Origin :=
  ⟨none, "domain.name".data, ["domain".data, "name".data], some 123⟩

/-! Helper lemmas. -/

theorem list_ne_nil_isEmpty_false {α : Type} {l : List α} (h : l ≠ []) :
    l.isEmpty = false := by
  cases l with
  | nil => exact absurd rfl h
  | cons a t => rfl

theorem append_cons_ne_nil {α : Type} (l1 l2 : List α) (a : α) :
    l1 ++ a :: l2 ≠ [] := by
  cases l1 <;> simp

theorem takeWhile_append_all {p : Char → Bool} :
    ∀ a b : Str, (∀ c ∈ a, p c = true) → (a ++ b).takeWhile p = a ++ b.takeWhile p := by
  intro a
  induction a with
  | nil => intro b h; simp
  | cons c t ih =>
    intro b h
    have hc : p c = true := h c (List.mem_cons_self c t)
    simp only [List.cons_append, List.takeWhile_cons_of_pos hc]
    rw [ih b fun x hx => h x (List.mem_cons_of_mem c hx)]

theorem dropWhile_append_all {p : Char → Bool} :
    ∀ a b : Str, (∀ c ∈ a, p c = true) → (a ++ b).dropWhile p = b.dropWhile p := by
  intro a
  induction a with
  | nil => intro b h; simp
  | cons c t ih =>
    intro b h
    have hc : p c = true := h c (List.mem_cons_self c t)
    simp only [List.cons_append, List.dropWhile_cons_of_pos hc]
    exact ih b fun x hx => h x (List.mem_cons_of_mem c hx)

theorem takeWhile_all_eq {p : Char → Bool} (a : Str) (h : ∀ c ∈ a, p c = true) :
    a.takeWhile p = a := by
  have := takeWhile_append_all a [] h
  simpa using this

theorem notColon_eq_true {c : Char} (h : c ≠ ':') : notColon c = true := by
  simp [notColon, h]

theorem isHostChar_eq_true {c : Char} (h1 : c ≠ ':') (h2 : c ≠ '/') :
    isHostChar c = true := by
  simp [isHostChar, h1, h2]

theorem digitChar_toNat {d : Nat} (h : d < 10) : (Nat.digitChar d).toNat = 48 + d := by
  interval_cases d <;> decide

theorem digitChar_isDigit {d : Nat} (h : d < 10) :
    isDigitChar (Nat.digitChar d) = true := by
  interval_cases d <;> decide

theorem natToCharsAux_eq : ∀ (fuel n : Nat) (acc : Str), n ≤ fuel →
    natToCharsAux fuel n acc = ((Nat.digits 10 n).map Nat.digitChar).reverse ++ acc := by
  intro fuel
  induction fuel with
  | zero =>
    intro n acc h
    have h0 : n = 0 := by omega
    subst h0
    simp [natToCharsAux]
  | succ f ih =>
    intro n acc h
    by_cases h0 : n = 0
    · subst h0; simp [natToCharsAux]
    · have hpos : 0 < n := Nat.pos_of_ne_zero h0
      have hdiv : n / 10 ≤ f := by omega
      simp only [natToCharsAux, if_neg h0]
      rw [ih _ _ hdiv, Nat.digits_def' (by norm_num : (1 : ℕ) < 10) hpos]
      simp [List.append_assoc]

theorem parseNat_digits_map : ∀ D : List ℕ, (∀ d ∈ D, d < 10) →
    (D.map Nat.digitChar).foldr (fun c a => 10 * a + (c.toNat - 48)) 0 =
      Nat.ofDigits 10 D := by
  intro D
  induction D with
  | nil => intro h; simp [Nat.ofDigits_nil]
  | cons d t ih =>
    intro h
    have hd : d < 10 := h d (List.mem_cons_self d t)
    simp only [List.map_cons, List.foldr_cons,
      ih fun x hx => h x (List.mem_cons_of_mem d hx),
      Nat.ofDigits_cons, digitChar_toNat hd, Nat.cast_id]
    omega

theorem parseNat_natChars (n : Nat) : parseNat (natChars n) = n := by
  by_cases h0 : n = 0
  · subst h0; decide
  · unfold natChars
    rw [if_neg h0, natToCharsAux_eq n n [] le_rfl]
    unfold parseNat
    rw [List.append_nil, List.foldl_reverse]
    rw [parseNat_digits_map _ fun d hd => Nat.digits_lt_base (by norm_num) hd]
    exact Nat.ofDigits_digits 10 n

theorem natChars_ne_nil (n : Nat) : natChars n ≠ [] := by
  by_cases h0 : n = 0
  · subst h0; simp [natChars]
  · unfold natChars
    rw [if_neg h0, natToCharsAux_eq n n [] le_rfl]
    simp [Nat.digits_ne_nil_iff_ne_zero, h0]

theorem natChars_all_digit (n : Nat) : ∀ c ∈ natChars n, isDigitChar c = true := by
  by_cases h0 : n = 0
  · subst h0
    intro c hc
    simp [natChars] at hc
    subst hc
    decide
  · unfold natChars
    rw [if_neg h0, natToCharsAux_eq n n [] le_rfl]
    intro c hc
    simp only [List.append_nil, List.mem_reverse, List.mem_map] at hc
    obtain ⟨d, hd, rfl⟩ := hc
    exact digitChar_isDigit (Nat.digits_lt_base (by norm_num) hd)

/-- Computation of the regex captures on a canonical
`scheme://host:digits` input. -/
theorem captures_canonical (sch host ds : Str)
    (hs : sch ≠ []) (hsc : ∀ c ∈ sch, c ≠ ':')
    (hh : host ≠ []) (hhc : ∀ c ∈ host, c ≠ ':' ∧ c ≠ '/')
    (hd : ds ≠ []) (hdd : ∀ c ∈ ds, isDigitChar c = true) :
    captures (sch ++ ':' :: '/' :: '/' :: (host ++ ':' :: ds)) =
      some ⟨some sch, host, some ds⟩ := by
  have hpre : (sch ++ ':' :: '/' :: '/' :: (host ++ ':' :: ds)).takeWhile notColon = sch := by
    rw [takeWhile_append_all _ _ fun c hc => notColon_eq_true (hsc c hc),
      List.takeWhile_cons_of_neg (by decide)]
    simp
  have hrest : (sch ++ ':' :: '/' :: '/' :: (host ++ ':' :: ds)).dropWhile notColon =
      ':' :: '/' :: '/' :: (host ++ ':' :: ds) := by
    rw [dropWhile_append_all _ _ fun c hc => notColon_eq_true (hsc c hc),
      List.dropWhile_cons_of_neg (by decide)]
  have hhost : (host ++ ':' :: ds).takeWhile isHostChar = host := by
    rw [takeWhile_append_all _ _ fun c hc => isHostChar_eq_true (hhc c hc).1 (hhc c hc).2,
      List.takeWhile_cons_of_neg (by decide)]
    simp
  have hhostdrop : (host ++ ':' :: ds).dropWhile isHostChar = ':' :: ds := by
    rw [dropWhile_append_all _ _ fun c hc => isHostChar_eq_true (hhc c hc).1 (hhc c hc).2,
      List.dropWhile_cons_of_neg (by decide)]
  have hds : ds.takeWhile isDigitChar = ds := takeWhile_all_eq ds hdd
  have hss : schemeSplit (sch ++ ':' :: '/' :: '/' :: (host ++ ':' :: ds)) =
      some (sch, host ++ ':' :: ds) := by
    simp only [schemeSplit, hrest, hpre]
    simp [hs]
  have hchp : captureHostPort (some sch) (host ++ ':' :: ds) =
      some ⟨some sch, host, some ds⟩ := by
    simp only [captureHostPort, hhost, hhostdrop, if_neg hh, capturePort, hds, if_neg hd]
    simp
  simp [captures, hss, hchp]

/-! Theorems for the claims. -/

/-- C4: `validate_access` fails with `ProjectInactive` whenever the
project is disabled, regardless of key and origin; with the project
enabled it fails with `KeyInvalid` whenever no key entry has the given
value and `is_valid`, regardless of the origin argument; origin checks
are therefore reached only past both gates. -/
theorem c4_gating_order (p : ProjectData) (id : Str) (auth : Option Str)
    (src : OriginSource) :
    (p.is_enabled = false → validate_access p id auth src = .error .ProjectInactive) ∧
    (p.is_enabled = true → has_valid_key p id = false →
      validate_access p id auth src = .error .KeyInvalid) := by
  constructor
  · intro h
    simp [validate_access, h]
  · intro h hk
    simp [validate_access, h, hk]

/-- Witness for C4 at a concrete disabled project. -/
theorem c4_gating_order_witness :
    validate_access { exProject [] [] [] with is_enabled := false } "k".data
      (some "test.example.com".data) .Header = .error .ProjectInactive :=
  (c4_gating_order _ _ _ _).1 (by decide)

/-- C7: with an enabled project and a valid key, calling
`validate_access` with no presented origin succeeds, for every source
kind and independently of the three allow-lists. -/
theorem c7_no_origin_pass (p : ProjectData) (id : Str) (src : OriginSource)
    (he : p.is_enabled = true) (hk : has_valid_key p id = true) :
    validate_access p id none src = .ok () := by
  simp [validate_access, he, hk]

/-- Witness for C7 at a concrete project with non-empty allow-lists. -/
theorem c7_no_origin_pass_witness :
    validate_access (exProject ["https://a.example.com".data] ["com.example.b".data]
      ["com.example.p".data]) "k".data none .BundleId = .ok () :=
  c7_no_origin_pass _ _ _ (by decide) (by decide)

/-- C3: for an enabled project and valid key, a `Header`-sourced origin
whose parsed hostname is exactly `localhost` or `127.0.0.1` is always
accepted, whatever `allowed_origins` contains. -/
theorem c3_localhost_bypass (p : ProjectData) (id s : Str) (auth : Origin)
    (he : p.is_enabled = true) (hk : has_valid_key p id = true)
    (hp : Origin.tryFrom s = .ok auth)
    (hl : auth.hostname = "localhost".data ∨ auth.hostname = "127.0.0.1".data) :
    validate_access p id (some s) .Header = .ok () := by
  have hloc : is_local_host auth = true := by
    rcases hl with h | h <;> simp [is_local_host, ALLOWED_LOCAL_HOSTS, h]
  simp only [validate_access, he, hk, Bool.not_true, Bool.false_eq_true, if_false, hp]
  by_cases hemp : p.allowed_origins.isEmpty <;>
    simp [valiadte_origin_header, hemp, hloc]

/-- Witness for C3: `localhost` is accepted although `allowed_origins`
is non-empty and matches nothing. -/
theorem c3_localhost_bypass_witness :
    validate_access (exProject ["https://a.example.com".data] [] []) "k".data
      (some "http://localhost:3000".data) .Header = .ok () :=
  c3_localhost_bypass _ _ _
    ⟨some "http".data, "localhost".data, ["localhost".data], some 3000⟩
    (by decide) (by decide) (by decide) (by decide)

/-- C5: `"a.b.domain.name"` matched against `"name.domain.b.a"` in
reverse mode succeeds, while forward matching of the same pair fails;
the in-source `matches_opt` under `AllowBundleID` agrees. -/
theorem c5_reverse_matching :
    Origin.tryFrom "a.b.domain.name".data = .ok originABDN ∧
    Origin.tryFrom "name.domain.b.a".data = .ok originNDBA ∧
    originABDN.matches_rev originNDBA = true ∧
    originABDN.matches originNDBA = false ∧
    originABDN.matches_opt originNDBA ⟨true, true, true, true, false⟩ = true := by
  decide

/-- Counterexample to C1: with a non-empty `bundle_ids` none of whose
entries matches the presented origin, `validate_access` nevertheless
succeeds, because the code falls back to `allowed_origins` — so the
decision is not made against `bundle_ids` alone and no
`OriginNotAllowed` is produced. -/
theorem c1_counterexample :
    Origin.tryFrom "test.example.com".data = .ok authTestExample ∧
    exProjectC1.bundle_ids ≠ [] ∧
    exProjectC1.bundle_ids.any (entry_matches_fwd authTestExample) = false ∧
    validate_access exProjectC1 "k".data (some "test.example.com".data) .BundleId =
      .ok () := by
  decide

/-- C1 (amended): for `BundleId`/`PackageName` sources with a non-empty
primary list, `validate_access` first scans that list with reverse
matching disabled; if no entry matches it does not fail immediately but
falls back to the `allowed_origins` check (with the empty-list allow-all
disabled): local-host bypass, then forward-or-reverse matching against
`allowed_origins`; only if that also fails does it return
`OriginNotAllowed`. -/
theorem c1_amended_bundle_fallback (p : ProjectData) (id s : Str)
    (src : OriginSource) (auth : Origin)
    (he : p.is_enabled = true) (hk : has_valid_key p id = true)
    (hsrc : src = .BundleId ∨ src = .PackageName)
    (hp : Origin.tryFrom s = .ok auth)
    (hne : primary_list p src ≠ []) :
    validate_access p id (some s) src =
      (if (primary_list p src).any (entry_matches_fwd auth) then .ok ()
       else if is_local_host auth then .ok ()
       else if p.allowed_origins.any (entry_matches_fwd_rev auth) then .ok ()
       else .error .OriginNotAllowed) := by
  rcases hsrc with h | h <;> subst h <;>
    simp only [primary_list] at hne ⊢ <;>
    simp [validate_access, he, hk, hp, validate_origin,
      list_ne_nil_isEmpty_false hne, valiadte_origin_header]

/-- Witness for C1 (amended): concrete run through the fallback path. -/
theorem c1_amended_bundle_fallback_witness :
    validate_access exProjectC1 "k".data (some "test.example.com".data) .BundleId =
      (if (primary_list exProjectC1 .BundleId).any (entry_matches_fwd authTestExample)
        then .ok ()
       else if is_local_host authTestExample then .ok ()
       else if exProjectC1.allowed_origins.any (entry_matches_fwd_rev authTestExample)
        then .ok ()
       else .error .OriginNotAllowed) :=
  c1_amended_bundle_fallback _ _ _ _ _ (by decide) (by decide) (Or.inl rfl)
    (by decide) (by decide)

/-- Counterexample to C2: two origins identical except that exactly one
carries a port fail the forward matcher `matches`, although the claim
says a missing port on either side passes the port check. -/
theorem c2_counterexample :
    Origin.tryFrom "domain.name".data = .ok originDNnoPort ∧
    Origin.tryFrom "domain.name:123".data = .ok originDNport ∧
    originDNnoPort.port = none ∧
    originDNnoPort.scheme = originDNport.scheme ∧
    originDNnoPort.hostname_parts = originDNport.hostname_parts ∧
    originDNnoPort.matches originDNport = false ∧
    originDNport.matches originDNnoPort = false := by
  decide

/-- Counterexample to C6: a lone malformed allow-list entry changes the
decision — with `bundle_ids = [":"]` the presented origin is denied,
while with the malformed entry removed (`bundle_ids = []`) the
empty-list rule allows it. -/
theorem c6_counterexample :
    Origin.tryFrom ":".data = .error .InvalidFormat ∧
    validate_access (exProject [] [":".data] []) "k".data (some "app.example.com".data)
      .BundleId = .error .OriginNotAllowed ∧
    validate_access (exProject [] [] []) "k".data (some "app.example.com".data)
      .BundleId = .ok () := by
  decide

/-- C2 (amended): the reverse matcher's port check is lenient — it fails
exactly when both origins specify a port and the ports differ, and when
either side has no port it passes; but the forward matcher `matches`
compares the optional ports for strict equality, so there an origin
without a port never matches one with a port. -/
theorem c2_amended_port_checks (o1 o2 : Origin) :
    o1.matches o2 = (scheme_check o1 o2 && port_check_strict o1 o2 && seg_check_fwd o1 o2) ∧
    o1.matches_rev o2 =
      (scheme_check o1 o2 && port_check_lenient o1 o2 && seg_check_rev o1 o2) ∧
    (port_check_lenient o1 o2 = false ↔
      o1.port.isSome = true ∧ o2.port.isSome = true ∧ o1.port ≠ o2.port) ∧
    ((o1.port = none ∨ o2.port = none) → port_check_lenient o1 o2 = true) := by
  refine ⟨?_, ?_, ?_, ?_⟩
  · simp only [Origin.matches, scheme_check, port_check_strict, seg_check_fwd]
    cases hA : (o1.scheme.isSome && o2.scheme.isSome && o1.scheme != o2.scheme) <;>
      cases hB : (o1.port != o2.port) <;>
      cases hC : (o1.hostname_parts.length != o2.hostname_parts.length) <;>
      simp_all [bne]
  · simp only [Origin.matches_rev, scheme_check, port_check_lenient, seg_check_rev]
    cases hA : (o1.scheme.isSome && o2.scheme.isSome && o1.scheme != o2.scheme) <;>
      cases hB : (o1.port.isSome && o2.port.isSome && o1.port != o2.port) <;>
      cases hC : (o1.hostname_parts.length != o2.hostname_parts.length) <;>
      simp_all [bne]
  · simp [port_check_lenient, bne, and_assoc]
  · rintro (h | h) <;> simp [port_check_lenient, h]

/-- Witness for C2 (amended): the lenient reverse check accepts a
one-sided port while the strict forward check rejects it. -/
theorem c2_amended_port_checks_witness :
    port_check_lenient originDNnoPort originDNport = true :=
  (c2_amended_port_checks originDNnoPort originDNport).2.2.2 (Or.inl rfl)

/-- Index-wise reading of the wildcard segment loop over zipped lists of
equal length. -/
theorem zip_all_wildcard_iff : ∀ (l1 l2 : List Str), l1.length = l2.length →
    (((List.zip l1 l2).all fun p => p.1 == WILDCARD || p.1 == p.2) = true ↔
      ∀ i, i < l1.length →
        l1.getD i [] = WILDCARD ∨ l1.getD i [] = l2.getD i []) := by
  intro l1
  induction l1 with
  | nil => intro l2 h; simp
  | cons a t ih =>
    intro l2 h
    cases l2 with
    | nil => simp at h
    | cons b t2 =>
      simp only [List.length_cons, Nat.succ_inj] at h
      simp only [List.zip_cons_cons, List.all_cons, Bool.and_eq_true, Bool.or_eq_true,
        beq_iff_eq, List.length_cons]
      constructor
      · rintro ⟨h0, hrest⟩ i hi
        cases i with
        | zero => simpa using h0
        | succ j =>
          simp only [List.getD_cons_succ]
          exact (ih t2 h).mp hrest j (by omega)
      · intro hAll
        refine ⟨by simpa using hAll 0 (by omega), (ih t2 h).mpr ?_⟩
        intro j hj
        simpa using hAll (j + 1) (by omega)

/-- C8: the forward matcher fails outright when the two origins have
different segment counts, wildcards included; with equal counts it
succeeds exactly when the scheme check passes, the ports are equal, and
at every position the `self` segment is the literal `*` or equals the
presented segment byte-wise. -/
theorem c8_forward_segments (o1 o2 : Origin) :
    (o1.hostname_parts.length ≠ o2.hostname_parts.length → o1.matches o2 = false) ∧
    (o1.hostname_parts.length = o2.hostname_parts.length →
      (o1.matches o2 = true ↔
        scheme_check o1 o2 = true ∧ o1.port = o2.port ∧
        ∀ i, i < o1.hostname_parts.length →
          o1.hostname_parts.getD i [] = WILDCARD ∨
          o1.hostname_parts.getD i [] = o2.hostname_parts.getD i [])) := by
  constructor
  · intro hne
    have h3 : (o1.hostname_parts.length != o2.hostname_parts.length) = true := by
      simp [bne, hne]
    simp [Origin.matches, h3]
  · intro hlen
    have h3 : (o1.hostname_parts.length != o2.hostname_parts.length) = false := by
      simp [bne, hlen]
    cases hA : (o1.scheme.isSome && o2.scheme.isSome && o1.scheme != o2.scheme) with
    | true => simp [Origin.matches, scheme_check, hA]
    | false =>
      cases hB : (o1.port != o2.port) with
      | true =>
        have hne : o1.port ≠ o2.port := by simpa [bne] using hB
        simp [Origin.matches, hA, hB, hne]
      | false =>
        have heq : o1.port = o2.port := by simpa [bne] using hB
        rw [Origin.matches]
        simp only [hA, hB, h3, Bool.false_eq_true, if_false]
        rw [zip_all_wildcard_iff o1.hostname_parts o2.hostname_parts hlen]
        simp [scheme_check, hA, heq]

/-- Witness for C8: `"a.b.c"` does not match `"a.b"`, nor does a fully
wildcarded three-segment pattern, and the iff holds at a concrete equal
length pair. -/
theorem c8_forward_segments_witness :
    (Origin.mk none "a.b.c".data ["a".data, "b".data, "c".data] none).matches
      (Origin.mk none "a.b".data ["a".data, "b".data] none) = false :=
  (c8_forward_segments _ _).1 (by decide)

/-- C6 (amended): a malformed allow-list entry is skipped by the scan —
it never matches and never raises an error — so as long as the rest of
the list is non-empty, removing the malformed entry does not change the
decision of `validate_access` for any key, presented origin and source;
(the non-emptiness proviso is forced: a malformed entry still counts
toward the list being non-empty, so a list of only malformed entries
differs from an empty, allow-all list). -/
theorem c6_amended_skip_malformed (p : ProjectData) (id : Str)
    (auth_origin : Option Str) (src : OriginSource) (kind : ListKind)
    (l1 l2 : List Str) (bad : Str) (e : OriginParseError)
    (hbad : Origin.tryFrom bad = .error e) (hne : l1 ++ l2 ≠ []) :
    validate_access (set_list p kind (l1 ++ bad :: l2)) id auth_origin src =
    validate_access (set_list p kind (l1 ++ l2)) id auth_origin src := by
  have hfwd : ∀ auth : Origin, entry_matches_fwd auth bad = false := by
    intro auth; simp [entry_matches_fwd, hbad]
  have hfr : ∀ auth : Origin, entry_matches_fwd_rev auth bad = false := by
    intro auth; simp [entry_matches_fwd_rev, hbad]
  have hany : ∀ pred : Str → Bool, pred bad = false →
      (l1 ++ bad :: l2).any pred = (l1 ++ l2).any pred := by
    intro pred h
    simp [List.any_append, h]
  have hemp1 : (l1 ++ bad :: l2).isEmpty = false :=
    list_ne_nil_isEmpty_false (append_cons_ne_nil l1 l2 bad)
  have hemp2 : (l1 ++ l2).isEmpty = false := list_ne_nil_isEmpty_false hne
  cases auth_origin with
  | none => cases kind <;> simp [validate_access, set_list, has_valid_key]
  | some s =>
    cases hs : Origin.tryFrom s with
    | error e2 => cases kind <;> simp [validate_access, set_list, has_valid_key, hs]
    | ok auth =>
      have h1 := hany _ (hfwd auth)
      have h2 := hany _ (hfr auth)
      cases src <;> cases kind <;>
        simp [validate_access, set_list, has_valid_key, hs, validate_origin,
          valiadte_origin_header, h1, h2, hemp1, hemp2]

/-- Witness for C6 (amended): removing the malformed entry `":"` from a
bundle-id list with one well-formed entry leaves the decision unchanged. -/
theorem c6_amended_skip_malformed_witness :
    validate_access (set_list (exProject [] [] []) .BundleIds
        (["com.example.bundle".data] ++ ":".data :: [])) "k".data
      (some "app.example.com".data) .BundleId =
    validate_access (set_list (exProject [] [] []) .BundleIds
        (["com.example.bundle".data] ++ [])) "k".data
      (some "app.example.com".data) .BundleId :=
  c6_amended_skip_malformed (exProject [] [] []) "k".data
    (some "app.example.com".data) .BundleId .BundleIds
    ["com.example.bundle".data] [] ":".data .InvalidFormat (by decide) (by decide)

/-- C9: for every canonical `scheme://host.host:port` string — non-empty
scheme without `:`, non-empty hostname without `:` or `/`, and a port in
canonical decimal with value at most 65535 — parsing succeeds and
re-serializing the parsed origin through its display form yields exactly
the original string (in particular joining the split hostname segments
with `.` reproduces the hostname). -/
theorem c9_roundtrip (sch host : Str) (n : Nat)
    (hs : sch ≠ []) (hsc : ∀ c ∈ sch, c ≠ ':')
    (hh : host ≠ []) (hhc : ∀ c ∈ host, c ≠ ':' ∧ c ≠ '/')
    (hn : n ≤ 65535) :
    Origin.tryFrom (sch ++ ':' :: '/' :: '/' :: (host ++ ':' :: natChars n)) =
      .ok ⟨some sch, host, splitOnDot host, some n⟩ ∧
    Origin.display ⟨some sch, host, splitOnDot host, some n⟩ =
      sch ++ ':' :: '/' :: '/' :: (host ++ ':' :: natChars n) := by
  constructor
  · rw [Origin.tryFrom,
      captures_canonical sch host (natChars n) hs hsc hh hhc
        (natChars_ne_nil n) (natChars_all_digit n)]
    simp [parseNat_natChars, hn]
  · simp only [Origin.display, joinDots, splitOnDot]
    rw [List.intercalate_splitOn]
    simp

/-- Witness for C9 at `"http://domain.name:123"`. -/
theorem c9_roundtrip_witness :
    Origin.tryFrom ("http".data ++ ':' :: '/' :: '/' ::
        ("domain.name".data ++ ':' :: natChars 123)) =
      .ok ⟨some "http".data, "domain.name".data, splitOnDot "domain.name".data, some 123⟩ ∧
    Origin.display
        ⟨some "http".data, "domain.name".data, splitOnDot "domain.name".data, some 123⟩ =
      "http".data ++ ':' :: '/' :: '/' :: ("domain.name".data ++ ':' :: natChars 123) :=
  c9_roundtrip "http".data "domain.name".data 123 (by decide) (by decide) (by decide)
    (by decide) (by decide)

/-- When the input starts with a character legal in the hostname group,
the regex always finds some match. -/
theorem captures_some_of_hostchar (s : Str) (h : s.takeWhile isHostChar ≠ []) :
    ∃ caps, captures s = some caps := by
  have hfb : captureHostPort none s =
      some ⟨none, s.takeWhile isHostChar, capturePort (s.dropWhile isHostChar)⟩ := by
    simp [captureHostPort, h]
  rw [captures]
  cases hss : schemeSplit s with
  | none => exact ⟨_, hfb⟩
  | some pr =>
    obtain ⟨sch, r⟩ := pr
    dsimp only
    cases hcp : captureHostPort (some sch) r with
    | none => exact ⟨_, hfb⟩
    | some caps => exact ⟨caps, rfl⟩

/-- C10: on any non-empty input whose first character is neither `:` nor
`/`, parsing never reports `InvalidFormat` — it either succeeds or fails
with `InvalidPortNumber`; and the scheme-only input `"http://"` parses
as the origin with no scheme, hostname `http` and no port, its trailing
`://` being ignored. -/
theorem c10_no_invalid_format :
    (∀ (c : Char) (rest : Str), c ≠ ':' → c ≠ '/' →
      ((∃ o, Origin.tryFrom (c :: rest) = .ok o) ∨
        Origin.tryFrom (c :: rest) = .error .InvalidPortNumber)) ∧
    Origin.tryFrom "http://".data = .ok ⟨none, "http".data, ["http".data], none⟩ := by
  constructor
  · intro c rest hc hs
    have hhead : (c :: rest).takeWhile isHostChar ≠ [] := by
      rw [List.takeWhile_cons_of_pos (isHostChar_eq_true hc hs)]
      simp
    obtain ⟨caps, hcaps⟩ := captures_some_of_hostchar (c :: rest) hhead
    rw [Origin.tryFrom, hcaps]
    dsimp only
    cases hp : caps.portStr with
    | none => exact Or.inl ⟨_, rfl⟩
    | some ds =>
      dsimp only
      by_cases hv : parseNat ds ≤ 65535
      · exact Or.inl ⟨_, by rw [if_pos hv]⟩
      · exact Or.inr (by rw [if_neg hv])
  · decide

/-- Witness for C10 at the one-character input `"a"`. -/
theorem c10_no_invalid_format_witness :
    (∃ o, Origin.tryFrom ['a'] = .ok o) ∨
      Origin.tryFrom ['a'] = .error .InvalidPortNumber :=
  c10_no_invalid_format.1 'a' [] (by decide) (by decide)

end Cerberus
